import Mathlib

/-!
Verification of the segmentation and retrieval engine of the split-eda
repository (`eda_pre_process.py` and `eda.py`).

Modelling conventions:
* Python floats (timestamps in microseconds and EDA values) are modelled as
  exact rationals `ℚ`.
* Python exceptions are modelled by `Except String`, the string being the
  Python exception class that would be raised (`ZeroDivisionError`,
  `IndexError`, `AssertionError`).
* Python strings are modelled as `List Char`; Python `datetime` values,
  produced by `datetime.fromtimestamp(micros / 1_000_000, TIMEZONE)` with one
  fixed timezone, are an order-isomorphic re-labelling of the microsecond
  timestamps, so comparisons and equalities on them are modelled directly on
  the microsecond values.
-/

/-- A raw sample: `(timestamp in microseconds, eda value)`. -/
abbrev Sample : Type := ℚ × ℚ

/-- A Python string, modelled as its list of characters. -/
abbrev Str : Type := List Char

/-- A group tag, a triple of strings such as `('HMD', 'flat', '2')`. -/
abbrev Tag : Type := Str × Str × Str

/-- A group pattern has the same shape as a tag; components may contain `'*'`. -/
abbrev Pattern : Type := Tag

/-- Shorthand turning a string literal into its character list. -/
def str (s : String) : Str := s.toList

/-- The adjacent-gap list of `eda_pre_process.py`:
`gap_sizes = [raw[i + 1][0] - raw[i][0] for i in range(len(raw) - 1)]`. -/
def gapSizes (raw : List Sample) : List ℚ :=
  (List.range (raw.length - 1)).map
    (fun i => (raw.getD (i + 1) (0, 0)).1 - (raw.getD i (0, 0)).1)

/-- `PreProcessedEda`: one chunk of data together with its sampling rate. -/
structure PreProcessedEda where
  data : List Sample
  sampling_rate : ℚ
deriving DecidableEq, Repr

/-- `PreProcessedEda.from_raw`: computes the average gap and the sampling rate
`1_000_000 / average_time_in_micros`.  In Python, an empty gap list makes
`sum(gap_sizes) / len(gap_sizes)` raise `ZeroDivisionError`, and an average of
zero makes `1_000_000 / average_time_in_micros` raise `ZeroDivisionError`. -/
def PreProcessedEda.from_raw (raw : List Sample) : Except String PreProcessedEda :=
  let gap_sizes := gapSizes raw
  if gap_sizes.length = 0 then Except.error "ZeroDivisionError"
  else
    let average_time_in_micros := gap_sizes.sum / (gap_sizes.length : ℚ)
    if average_time_in_micros = 0 then Except.error "ZeroDivisionError"
    else Except.ok ⟨raw, 1000000 / average_time_in_micros⟩

/-- The test `diff > average + 3 * stddev` of `is_large_gap`, with
`stddev = math.sqrt(variance)`.  Stated in exact arithmetic: since
`stddev ≥ 0`, `diff > avg + 3 * stddev` holds iff `avg < diff` and
`(diff - avg)^2 > 9 * variance` (proved below as `is_large_gap_iff_sqrt`). -/
def is_large_gap (avg variance diff : ℚ) : Bool :=
  decide (avg < diff) && decide (9 * variance < (diff - avg) ^ 2)

/-- The indices of the large gaps:
`large_gaps = [i for i, diff in enumerate(gap_sizes) if is_large_gap(diff)]`,
with the mean and population variance of `gap_sizes` computed as in
`pre_process_raw_eda`. -/
def large_gap_indices (gap_sizes : List ℚ) : List Nat :=
  let average_time_in_micros := gap_sizes.sum / (gap_sizes.length : ℚ)
  let sum_of_squared_diffs :=
    (gap_sizes.map (fun x => (x - average_time_in_micros) ^ 2)).sum
  let variance := sum_of_squared_diffs / (gap_sizes.length : ℚ)
  (List.range gap_sizes.length).filter
    (fun i => is_large_gap average_time_in_micros variance (gap_sizes.getD i 0))

/-- The chunk-building loop of `pre_process_raw_eda`:
`for gap in large_gaps: chunks.append(from_raw(raw[start:gap + 1])); start = gap + 1`
followed by `chunks.append(from_raw(raw[start:]))`.  The Python slice
`raw[start:gap + 1]` is `(raw.drop start).take (gap + 1 - start)`. -/
def buildChunks (raw : List Sample) : Nat → List Nat → Except String (List PreProcessedEda)
  | start, [] => do
    let c ← PreProcessedEda.from_raw (raw.drop start)
    return [c]
  | start, gap :: rest => do
    let c ← PreProcessedEda.from_raw ((raw.drop start).take (gap + 1 - start))
    let cs ← buildChunks raw (gap + 1) rest
    return c :: cs

/-- `pre_process_raw_eda`: breaks the raw data into chunks at the large gaps.
With fewer than two samples the gap list is empty and the mean computation
raises `ZeroDivisionError`. -/
def pre_process_raw_eda (raw : List Sample) : Except String (List PreProcessedEda) :=
  let gap_sizes := gapSizes raw
  if gap_sizes.length = 0 then Except.error "ZeroDivisionError"
  else buildChunks raw 0 (large_gap_indices gap_sizes)

/-- Python's `pattern.find('*')`: index of the first `'*'`, `none` for `-1`. -/
def find_star : Str → Option Nat
  | [] => none
  | c :: rest => if c = '*' then some 0 else (find_star rest).map (· + 1)

/-- `str_match` from `Eda.chunk`: with no wildcard the strings must be equal;
otherwise the first wildcard at position `k` splits the pattern into
`prefix = pattern[:k]` and `suffix = pattern[k+1:]`, and the test string must
start with the former, end with the latter, and be at least as long as the
two together. -/
def str_match (test pat : Str) : Bool :=
  match find_star pat with
  | none => test == pat
  | some k =>
    let pre := pat.take k
    let suf := pat.drop (k + 1)
    if pre.isPrefixOf test && suf.isSuffixOf test then
      decide (pre.length + suf.length ≤ test.length)
    else
      false

/-- `pattern_match` from `Eda.chunk`: every component of the group must match
the corresponding component of the pattern. -/
def pattern_match (group pat : Pattern) : Bool :=
  str_match group.1 pat.1 && str_match group.2.1 pat.2.1 && str_match group.2.2 pat.2.2

/-- `get_min_max_timestamps`: first and last timestamp of one data list.
`data[0]` / `data[-1]` raise `IndexError` on an empty list. -/
def get_min_max_timestamps (data : List Sample) : Except String (ℚ × ℚ) :=
  match data with
  | [] => Except.error "IndexError"
  | x :: xs => Except.ok (x.1, ((x :: xs).getLastD (0, 0)).1)

/-- `filter_by_timestamp_bounds`: keeps the data points whose timestamp lies
within the (inclusive) bounds. -/
def filter_by_timestamp_bounds (data : List Sample) (bounds : ℚ × ℚ) : List Sample :=
  data.filter (fun s => decide (bounds.1 ≤ s.1 ∧ s.1 ≤ bounds.2))

/-- One iteration of the loop in `get_min_max_timestamps_many`: reads
`data[0][0]` and `data[-1][0]` (raising `IndexError` on an empty list) and
updates the running `earliest` / `latest`, which start out as `None`. -/
def gmmtm_step (acc : Option ℚ × Option ℚ) (data : List Sample) :
    Except String (Option ℚ × Option ℚ) :=
  match data with
  | [] => Except.error "IndexError"
  | x :: xs =>
    let first := x.1
    let lastTs := ((x :: xs).getLastD (0, 0)).1
    let earliest :=
      match acc.1 with
      | none => first
      | some e0 => if first < e0 then first else e0
    let latest :=
      match acc.2 with
      | none => lastTs
      | some l0 => if l0 < lastTs then lastTs else l0
    Except.ok (some earliest, some latest)

/-- `get_min_max_timestamps_many`: folds `gmmtm_step` over all the value lists
of the mapping; the final `assert earliest is not None` /
`assert latest is not None` raise `AssertionError` when the mapping was
empty. -/
def get_min_max_timestamps_many (d : List (Tag × List Sample)) : Except String (ℚ × ℚ) :=
  match (d.map (fun e => e.2)).foldlM gmmtm_step ((none, none) : Option ℚ × Option ℚ) with
  | Except.error msg => Except.error msg
  | Except.ok (some e, some l) => Except.ok (e, l)
  | Except.ok (none, _) => Except.error "AssertionError"
  | Except.ok (some _, none) => Except.error "AssertionError"

/-- The `Eda` wrapper: the raw data plus the tag-to-data mapping.  The Python
`dict` is insertion ordered with unique keys; it is modelled as an association
list. -/
structure Eda where
  raw : List Sample
  data : List (Tag × List Sample)
deriving DecidableEq, Repr

/-- `Eda.chunk`: keeps the entries matching the pattern (copying each data
list), computes their combined bounds, and wraps the raw data filtered to
those bounds together with the retained entries. -/
def Eda.chunk (v : Eda) (group_pattern : Pattern) : Except String Eda :=
  let result := v.data.filter (fun e => pattern_match e.1 group_pattern)
  match get_min_max_timestamps_many result with
  | Except.error msg => Except.error msg
  | Except.ok new_data_bounds =>
    Except.ok ⟨filter_by_timestamp_bounds v.raw new_data_bounds, result⟩

/-- `Eda.get_raw_min_max_timestamps`: bounds of the raw data. -/
def Eda.get_raw_min_max_timestamps (v : Eda) : Except String (ℚ × ℚ) :=
  get_min_max_timestamps v.raw

/-- `Eda.get_min_max_timestamps`: bounds over the tag-to-data mapping. -/
def Eda.get_min_max_timestamps (v : Eda) : Except String (ℚ × ℚ) :=
  get_min_max_timestamps_many v.data

deriving instance DecidableEq for Except

/-! ### Concrete inputs used by witnesses and counterexamples -/

/-- The five-sample raw sequence of the C2 scenario (timestamps in
microseconds). -/
def c2in : List Sample :=
  [(0, 1), (1000, 11 / 10), (2000, 1), (50000, 12 / 10), (51000, 13 / 10)]

/-- A two-sample raw sequence with a single gap of 1 microsecond. -/
def rawW : List Sample := [(0, 0), (1, 0)]

/-- A sample tag. -/
def tagA : Tag := (str "A", str "B", str "C")

/-- A small view: raw data spanning timestamps 0–100, one tagged run whose
data spans 40–60. -/
def vC3 : Eda := ⟨[(0, 1), (50, 1), (100, 1)], [(tagA, [(40, 1), (60, 1)])]⟩

/-- The literal pattern equal to `tagA`. -/
def pC3 : Pattern := tagA

/-- The view `vC3.chunk pC3` evaluates to: the raw data filtered to the
matched bounds (40, 60) keeps only the sample at 50. -/
def vC3' : Eda := ⟨[(50, 1)], [(tagA, [(40, 1), (60, 1)])]⟩

/-- A pattern matching none of `vC3`'s tags. -/
def pNoMatch : Pattern := (str "Z", str "Z", str "Z")

/-! ### Helper lemmas about segmentation -/

theorem gapSizes_length (raw : List Sample) : (gapSizes raw).length = raw.length - 1 := by
  simp [gapSizes]

theorem from_raw_data {l : List Sample} {c : PreProcessedEda}
    (h : PreProcessedEda.from_raw l = Except.ok c) : c.data = l := by
  simp only [PreProcessedEda.from_raw] at h
  split at h
  · cases h
  · split at h
    · cases h
    · cases h; rfl

theorem large_gap_indices_pairwise (gs : List ℚ) :
    List.Pairwise (· < ·) (large_gap_indices gs) := by
  unfold large_gap_indices
  exact List.Pairwise.sublist (List.filter_sublist _) (List.pairwise_lt_range _)

theorem buildChunks_join (raw : List Sample) :
    ∀ (gs : List Nat) (start : Nat) (cs : List PreProcessedEda),
      List.Pairwise (· < ·) gs → (∀ g ∈ gs, start ≤ g + 1) →
      buildChunks raw start gs = Except.ok cs →
      (cs.map PreProcessedEda.data).flatten = raw.drop start := by
  intro gs
  induction gs with
  | nil =>
    intro start cs _ _ h
    unfold buildChunks at h
    cases hfr : PreProcessedEda.from_raw (raw.drop start) with
    | error m => rw [hfr] at h; cases h
    | ok c =>
      rw [hfr] at h
      cases h
      simp [from_raw_data hfr]
  | cons g rest ih =>
    intro start cs hpw hle h
    unfold buildChunks at h
    cases hfr : PreProcessedEda.from_raw ((raw.drop start).take (g + 1 - start)) with
    | error m => rw [hfr] at h; cases h
    | ok c =>
      rw [hfr] at h
      cases hbc : buildChunks raw (g + 1) rest with
      | error m => rw [hbc] at h; cases h
      | ok cs' =>
        rw [hbc] at h
        cases h
        have hrest : (cs'.map PreProcessedEda.data).flatten = raw.drop (g + 1) := by
          refine ih (g + 1) cs' (List.Pairwise.of_cons hpw) ?_ hbc
          intro g' hg'
          have : g < g' := List.rel_of_pairwise_cons hpw hg'
          omega
        have h1 : start ≤ g + 1 := hle g (List.mem_cons_self _ _)
        have h2 : raw.drop (g + 1) = (raw.drop start).drop (g + 1 - start) := by
          rw [List.drop_drop]
          congr 1
          omega
        simp only [List.map_cons, List.flatten_cons, hrest, from_raw_data hfr, h2,
          List.take_append_drop]

/-! ### Claim C1 -/

/-- Claim C1: for every sample sequence with at least 2 points, the chunks
returned by segmentation (`pre_process_raw_eda`), concatenated in order, equal
the input sequence exactly — no sample dropped, none duplicated, order
preserved. -/
theorem C1_segmentation_concat_exact (raw : List Sample) (chunks : List PreProcessedEda)
    (hlen : 2 ≤ raw.length)
    (h : pre_process_raw_eda raw = Except.ok chunks) :
    (chunks.map PreProcessedEda.data).flatten = raw := by
  simp only [pre_process_raw_eda] at h
  rw [if_neg (by rw [gapSizes_length]; omega)] at h
  have := buildChunks_join raw (large_gap_indices (gapSizes raw)) 0 chunks
    (large_gap_indices_pairwise _) (fun g _ => by omega) h
  simpa using this

/-- Evaluation of segmentation on `rawW`: a single gap of 1 microsecond, so a
single chunk with sampling rate `1_000_000` Hz. -/
theorem rawW_eval : pre_process_raw_eda rawW = Except.ok [⟨rawW, 1000000⟩] := by
  norm_num [pre_process_raw_eda, gapSizes, large_gap_indices, is_large_gap, buildChunks,
    PreProcessedEda.from_raw, rawW, List.range_succ, Except.bind, bind, pure, Except.pure]

/-- Witness for C1 at the concrete two-sample input `rawW`. -/
theorem C1_segmentation_concat_exact_witness :
    pre_process_raw_eda rawW = Except.ok [⟨rawW, 1000000⟩] ∧
      (([⟨rawW, 1000000⟩] : List PreProcessedEda).map PreProcessedEda.data).flatten = rawW :=
  ⟨rawW_eval, C1_segmentation_concat_exact rawW [⟨rawW, 1000000⟩] (by decide) rawW_eval⟩

/-! ### Claim C2 -/

/-- Evaluation of segmentation on the C2 scenario input: no gap is flagged
large, so the whole input is one chunk with sampling rate
`1_000_000 / 12750 = 4000/51` Hz. -/
theorem c2in_eval : pre_process_raw_eda c2in = Except.ok [⟨c2in, 4000 / 51⟩] := by
  norm_num [pre_process_raw_eda, gapSizes, large_gap_indices, is_large_gap, buildChunks,
    PreProcessedEda.from_raw, c2in, List.range_succ, Except.bind, bind, pure, Except.pure]

/-- Counterexample to claim C2: on the input
`[(0,1.0),(1000,1.1),(2000,1.0),(50000,1.2),(51000,1.3)]` the gap
`50000 - 2000 = 48000` is NOT flagged large by the `μ + 3σ` rule (here
`μ = 12750` and `σ² = 414187500`, so `μ + 3σ ≈ 73805 > 48000`), and
segmentation returns a single chunk containing all five samples rather than
the claimed two chunks. -/
theorem C2_two_chunks_counterexample :
    (pre_process_raw_eda c2in).map (fun cs => cs.map PreProcessedEda.data) =
        Except.ok [c2in] ∧
      is_large_gap 12750 414187500 48000 = false ∧
      ([c2in] : List (List Sample)) ≠ [c2in.take 3, c2in.drop 3] := by
  refine ⟨by rw [c2in_eval]; rfl, by norm_num [is_large_gap], ?_⟩
  intro h
  have := congrArg List.length h
  simp at this

/-- Claim C2 as amended: on the concrete input
`[(0,1.0),(1000,1.1),(2000,1.0),(50000,1.2),(51000,1.3)]` the mean gap is
`μ = 12750` (the outlier is included in the mean) and the population variance
is `σ² = 414187500`, so `μ + 3σ ≈ 73805` and the gap `48000` is not large;
segmentation returns exactly one chunk holding all five samples, with
sampling rate `1000000 / 12750 = 4000/51` Hz. -/
theorem C2_single_chunk :
    pre_process_raw_eda c2in = Except.ok [⟨c2in, 4000 / 51⟩] ∧
      gapSizes c2in = [1000, 1000, 48000, 1000] ∧
      is_large_gap 12750 414187500 48000 = false := by
  refine ⟨c2in_eval, by norm_num [gapSizes, c2in, List.range_succ], by norm_num [is_large_gap]⟩

/-! ### Claim C6 -/

/-- Counterexample to claim C6: on the empty input, segmentation does fail,
but with an (unhandled) `ZeroDivisionError` from computing the mean of the
empty gap list — there is no `InsufficientDataError` in the code. -/
theorem C6_error_kind_counterexample :
    pre_process_raw_eda [] = Except.error "ZeroDivisionError" ∧
      pre_process_raw_eda [] ≠ Except.error "InsufficientDataError" := by
  refine ⟨rfl, ?_⟩
  intro h
  rw [show pre_process_raw_eda [] = Except.error "ZeroDivisionError" from rfl] at h
  exact absurd (Except.error.inj h) (by decide)

/-- Claim C6 as amended: for every input sequence with fewer than 2 samples,
segmentation fails — with a `ZeroDivisionError` raised by
`sum(gap_sizes) / len(gap_sizes)` on the empty gap list, not with a dedicated
`InsufficientDataError`. -/
theorem C6_short_input_fails (raw : List Sample) (h : raw.length < 2) :
    pre_process_raw_eda raw = Except.error "ZeroDivisionError" := by
  simp only [pre_process_raw_eda]
  rw [if_pos (by rw [gapSizes_length]; omega)]

/-- Witness for C6 at the empty input and at a one-sample input. -/
theorem C6_short_input_fails_witness :
    pre_process_raw_eda [] = Except.error "ZeroDivisionError" ∧
      pre_process_raw_eda [(5, 1)] = Except.error "ZeroDivisionError" :=
  ⟨C6_short_input_fails [] (by decide), C6_short_input_fails [(5, 1)] (by decide)⟩

/-! ### Helper lemmas about string matching -/

theorem find_star_eq_none {l : Str} : find_star l = none ↔ ¬ '*' ∈ l := by
  induction l with
  | nil => simp [find_star]
  | cons c rest ih =>
    by_cases hc : c = '*'
    · subst hc; simp [find_star]
    · simp [find_star, hc, ih, Ne.symm hc]

theorem find_star_mem {l : Str} {k : Nat} (h : find_star l = some k) : '*' ∈ l := by
  induction l generalizing k with
  | nil => cases h
  | cons c rest ih =>
    by_cases hc : c = '*'
    · subst hc; exact List.mem_cons_self _ _
    · rw [find_star, if_neg hc] at h
      cases ho : find_star rest with
      | none => rw [ho] at h; cases h
      | some j => exact List.mem_cons_of_mem _ (ih ho)

theorem starts_with_exists {p t : Str} : p.isPrefixOf t = true ↔ ∃ r, t = p ++ r := by
  rw [ List.isPrefixOf_iff_prefix]
  constructor
  · rintro ⟨r, rfl⟩; exact ⟨r, rfl⟩
  · rintro ⟨r, rfl⟩; exact ⟨r, rfl⟩

theorem ends_with_exists {s t : Str} : s.isSuffixOf t = true ↔ ∃ l, t = l ++ s := by
  rw [ List.isSuffixOf_iff_suffix]
  constructor
  · rintro ⟨l, rfl⟩; exact ⟨l, rfl⟩
  · rintro ⟨l, rfl⟩; exact ⟨l, rfl⟩

theorem str_match_some {test pat : Str} {k : Nat} (h : find_star pat = some k) :
    str_match test pat = true ↔
      (pat.take k).isPrefixOf test = true ∧ (pat.drop (k + 1)).isSuffixOf test = true ∧
        (pat.take k).length + (pat.drop (k + 1)).length ≤ test.length := by
  simp only [str_match, h]
  constructor
  · intro hb
    split at hb
    next hc =>
      rw [Bool.and_eq_true] at hc
      exact ⟨hc.1, hc.2, of_decide_eq_true hb⟩
    next => cases hb
  · rintro ⟨h1, h2, h3⟩
    rw [if_pos (by rw [Bool.and_eq_true]; exact ⟨h1, h2⟩)]
    exact decide_eq_true h3

/-! ### Claim C4 -/

/-- Claim C4: `str_match` returns true iff the pattern contains no `'*'` and
the strings are equal, or the (first) wildcard at position `k` splits the
pattern into `prefix = pattern[:k]` and `suffix = pattern[k+1:]` such that
the tested component starts with the prefix, ends with the suffix, and is at
least `len(prefix) + len(suffix)` long; in particular `('HMD','f*','*')`
matches `('HMD','flat','2')` but matches neither `('hmd','flat','2')` nor
`('HMD','slope','2')`. -/
theorem C4_str_match_characterization :
    (∀ test pat : Str,
      str_match test pat = true ↔
        ((¬ '*' ∈ pat) ∧ test = pat) ∨
        (∃ k, find_star pat = some k ∧
          (∃ r, test = pat.take k ++ r) ∧
          (∃ l, test = l ++ pat.drop (k + 1)) ∧
          (pat.take k).length + (pat.drop (k + 1)).length ≤ test.length)) ∧
      pattern_match (str "HMD", str "flat", str "2") (str "HMD", str "f*", str "*") = true ∧
      pattern_match (str "hmd", str "flat", str "2") (str "HMD", str "f*", str "*") = false ∧
      pattern_match (str "HMD", str "slope", str "2") (str "HMD", str "f*", str "*") = false := by
  refine ⟨?_, by decide, by decide, by decide⟩
  intro test pat
  cases h : find_star pat with
  | none =>
    simp only [str_match, h]
    constructor
    · intro hb
      exact Or.inl ⟨ find_star_eq_none.mp h, by simpa using hb⟩
    · rintro (⟨_, rfl⟩ | ⟨k, hk, _⟩)
      · simp
      · cases hk
  | some k =>
    rw [str_match_some h]
    constructor
    · rintro ⟨h1, h2, h3⟩
      exact Or.inr ⟨k, rfl, starts_with_exists.mp h1, ends_with_exists.mp h2, h3⟩
    · rintro (⟨hno, rfl⟩ | ⟨k', hk', hpre, hsuf, hlen⟩)
      · exact absurd (find_star_mem h) hno
      · injection hk' with hkk
        subst hkk
        exact ⟨starts_with_exists.mpr hpre, ends_with_exists.mpr hsuf, hlen⟩

/-- Witness for C4: the characterization applied at the wildcard-free pattern
`'HMD'` and the equal component `'HMD'`. -/
theorem C4_str_match_characterization_witness :
    ((¬ '*' ∈ str "HMD") ∧ str "HMD" = str "HMD") ∨
      (∃ k, find_star (str "HMD") = some k ∧
        (∃ r, str "HMD" = (str "HMD").take k ++ r) ∧
        (∃ l, str "HMD" = l ++ (str "HMD").drop (k + 1)) ∧
        ((str "HMD").take k).length + ((str "HMD").drop (k + 1)).length ≤ (str "HMD").length) :=
  (C4_str_match_characterization.1 (str "HMD") (str "HMD")).mp (by decide)

/-! ### Claim C5 -/

/-- Counterexample to claim C5: the component pattern `'*a*b*'` has three
wildcards, yet matching it raises nothing — `str_match` silently treats the
first `'*'` as the only wildcard, so `'xa*b*'` (ending in the literal
characters `'a*b*'`) matches while `'xab'` (which a genuine multi-wildcard
glob `*a*b*` would accept) does not. -/
theorem C5_no_rejection_counterexample :
    (str "*a*b*").count '*' = 3 ∧
      str_match (str "xa*b*") (str "*a*b*") = true ∧
      str_match (str "xab") (str "*a*b*") = false := by
  refine ⟨by decide, by decide, by decide⟩

/-- Claim C5 as amended: a pattern component with more than one `'*'` is not
rejected and no `InvalidPatternError` exists; `str_match` uses only the first
wildcard, treating every later `'*'` as a literal character of the suffix
`pattern[k+1:]`. -/
theorem C5_first_wildcard_semantics :
    (∀ (test pat : Str) (k : Nat), find_star pat = some k →
        (str_match test pat = true ↔
          (pat.take k).isPrefixOf test = true ∧ (pat.drop (k + 1)).isSuffixOf test = true ∧
            (pat.take k).length + (pat.drop (k + 1)).length ≤ test.length)) ∧
      str_match (str "xa*b*") (str "*a*b*") = true := by
  exact ⟨fun _ _ _ h => str_match_some h, by decide⟩

/-- Witness for C5: the first-wildcard semantics applied to the
three-wildcard pattern `'*a*b*'` at the test string `'fooa*b*'`. -/
theorem C5_first_wildcard_semantics_witness :
    str_match (str "fooa*b*") (str "*a*b*") = true :=
  (C5_first_wildcard_semantics.1 (str "fooa*b*") (str "*a*b*") 0 (by decide)).mpr (by decide)

/-! ### Helper lemmas about bounds computation -/

theorem if_lt_min (a b : ℚ) : (if b < a then b else a) = min a b := by
  rcases lt_trichotomy b a with h | h | h
  · rw [if_pos h, min_eq_right (le_of_lt h)]
  · rw [h, if_neg (lt_irrefl _), min_self]
  · rw [if_neg (not_lt.mpr (le_of_lt h)), min_eq_left (le_of_lt h)]

theorem if_lt_max (a b : ℚ) : (if a < b then b else a) = max a b := by
  rcases lt_trichotomy a b with h | h | h
  · rw [if_pos h, max_eq_right (le_of_lt h)]
  · rw [h, if_neg (lt_irrefl _), max_self]
  · rw [if_neg (not_lt.mpr (le_of_lt h)), max_eq_left (le_of_lt h)]

theorem gmmtm_fold (vs : List (List Sample)) : ∀ e0 l0 : ℚ,
    (∀ v ∈ vs, v ≠ []) →
    ∃ E L,
      vs.foldlM gmmtm_step ((some e0, some l0) : Option ℚ × Option ℚ) =
          Except.ok (some E, some L) ∧
        (E = e0 ∨ E ∈ vs.map (fun v => (v.headD (0, 0)).1)) ∧ E ≤ e0 ∧
        (∀ x ∈ vs.map (fun v => (v.headD (0, 0)).1), E ≤ x) ∧
        (L = l0 ∨ L ∈ vs.map (fun v => (v.getLastD (0, 0)).1)) ∧ l0 ≤ L ∧
        (∀ x ∈ vs.map (fun v => (v.getLastD (0, 0)).1), x ≤ L) := by
  induction vs with
  | nil =>
    intro e0 l0 _
    exact ⟨e0, l0, rfl, Or.inl rfl, le_refl _, by simp, Or.inl rfl, le_refl _, by simp⟩
  | cons v vs ih =>
    intro e0 l0 hne
    obtain ⟨y, ys, rfl⟩ : ∃ y ys, v = y :: ys := by
      cases v with
      | nil => exact absurd rfl (hne [] (List.mem_cons_self _ _))
      | cons y ys => exact ⟨y, ys, rfl⟩
    have hstep : ((y :: ys) :: vs).foldlM gmmtm_step ((some e0, some l0) : Option ℚ × Option ℚ)
        = vs.foldlM gmmtm_step
            (some (min e0 y.1), some (max l0 ((y :: ys).getLastD (0, 0)).1)) := by
      rw [List.foldlM_cons]
      show vs.foldlM gmmtm_step (some (if y.1 < e0 then y.1 else e0),
          some (if l0 < ((y :: ys).getLastD (0, 0)).1 then ((y :: ys).getLastD (0, 0)).1
            else l0)) = _
      rw [if_lt_min, if_lt_max]
    obtain ⟨E, L, hfold, hEmem, hEle, hEbound, hLmem, hLle, hLbound⟩ :=
      ih (min e0 y.1) (max l0 ((y :: ys).getLastD (0, 0)).1)
        (fun v hv => hne v (List.mem_cons_of_mem _ hv))
    refine ⟨E, L, by rw [hstep, hfold], ?_, ?_, ?_, ?_, ?_, ?_⟩
    · rcases hEmem with h | h
      · rcases min_choice e0 y.1 with hm | hm
        · exact Or.inl (h.trans hm)
        · exact Or.inr (by simp [h.trans hm])
      · exact Or.inr (List.mem_cons_of_mem _ h)
    · exact hEle.trans (min_le_left _ _)
    · intro x hx
      rcases List.mem_cons.mp hx with h | h
      · simpa [h] using hEle.trans (min_le_right _ _)
      · exact hEbound x h
    · rcases hLmem with h | h
      · rcases max_choice l0 ((y :: ys).getLastD (0, 0)).1 with hm | hm
        · exact Or.inl (hm ▸ h)
        · exact Or.inr (by simp [hm ▸ h])
      · exact Or.inr (List.mem_cons_of_mem _ h)
    · exact (le_max_left _ _).trans hLle
    · intro x hx
      rcases List.mem_cons.mp hx with h | h
      · simpa [h] using (le_max_right l0 ((y :: ys).getLastD (0, 0)).1).trans hLle
      · exact hLbound x h

/-! ### Claim C7 -/

/-- Claim C7: for a non-empty collection of (non-empty) sequences,
`get_min_max_timestamps_many` returns the union of the per-sequence bounds —
the minimum over all first timestamps and the maximum over all last
timestamps. -/
theorem C7_bounds_union (d : List (Tag × List Sample)) (hne : d ≠ [])
    (hv : ∀ e ∈ d, e.2 ≠ []) :
    ∃ s t, get_min_max_timestamps_many d = Except.ok (s, t) ∧
      s ∈ d.map (fun e => (e.2.headD (0, 0)).1) ∧
      (∀ x ∈ d.map (fun e => (e.2.headD (0, 0)).1), s ≤ x) ∧
      t ∈ d.map (fun e => (e.2.getLastD (0, 0)).1) ∧
      (∀ x ∈ d.map (fun e => (e.2.getLastD (0, 0)).1), x ≤ t) := by
  obtain ⟨⟨tg, v⟩, rest, rfl⟩ : ∃ e rest, d = e :: rest := by
    cases d with
    | nil => exact absurd rfl hne
    | cons e rest => exact ⟨e, rest, rfl⟩
  obtain ⟨y, ys, rfl⟩ : ∃ y ys, v = y :: ys := by
    cases hvv : v with
    | nil => exact absurd (hvv ▸ hv (tg, v) (List.mem_cons_self _ _)) (by simp [hvv])
    | cons y ys => exact ⟨y, ys, rfl⟩
  have hstep : (((tg, y :: ys) :: rest).map (fun e => e.2)).foldlM gmmtm_step
      ((none, none) : Option ℚ × Option ℚ)
      = (rest.map (fun e => e.2)).foldlM gmmtm_step
          (some y.1, some ((y :: ys).getLastD (0, 0)).1) := by
    rw [List.map_cons, List.foldlM_cons]
    rfl
  obtain ⟨E, L, hfold, hEmem, hEle, hEbound, hLmem, hLle, hLbound⟩ :=
    gmmtm_fold (rest.map (fun e => e.2)) y.1 ((y :: ys).getLastD (0, 0)).1
      (fun v hv' => by
        obtain ⟨e, he, rfl⟩ := List.mem_map.mp hv'
        exact hv e (List.mem_cons_of_mem _ he))
  rw [List.map_map] at hEmem hEbound hLmem hLbound
  refine ⟨E, L, ?_, ?_, ?_, ?_, ?_⟩
  · unfold get_min_max_timestamps_many
    rw [hstep, hfold]
  · rcases hEmem with h | h
    · simp [h]
    · exact List.mem_cons_of_mem _ h
  · intro x hx
    rcases List.mem_cons.mp hx with h | h
    · simpa [h] using hEle
    · exact hEbound x h
  · rcases hLmem with h | h
    · simp [h]
    · exact List.mem_cons_of_mem _ h
  · intro x hx
    rcases List.mem_cons.mp hx with h | h
    · simpa [h] using hLle
    · exact hLbound x h

/-! ### Helper lemmas about `Eda.chunk` -/

theorem gmmtm_ok_ne_nil {d : List (Tag × List Sample)} {b : ℚ × ℚ}
    (h : get_min_max_timestamps_many d = Except.ok b) : d ≠ [] := by
  intro hd
  subst hd
  cases h

theorem chunk_ok_iff {v : Eda} {p : Pattern} {v' : Eda} :
    v.chunk p = Except.ok v' ↔
      ∃ b, get_min_max_timestamps_many (v.data.filter (fun e => pattern_match e.1 p)) =
          Except.ok b ∧
        v' = ⟨filter_by_timestamp_bounds v.raw b,
          v.data.filter (fun e => pattern_match e.1 p)⟩ := by
  simp only [Eda.chunk]
  cases hb : get_min_max_timestamps_many (v.data.filter (fun e => pattern_match e.1 p)) with
  | error m =>
    constructor
    · intro h; cases h
    · rintro ⟨b, hb', _⟩; cases hb'
  | ok b =>
    constructor
    · intro h
      exact ⟨b, rfl, (Except.ok.inj h).symm⟩
    · rintro ⟨b', hb', rfl⟩
      rw [Except.ok.inj hb']

/-! ### Claim C3 -/

/-- Counterexample to claim C3: narrowing `vC3` (raw spanning 0–100, one tag
with data spanning 40–60) by the matching pattern `pC3` filters the raw data
down to the single sample at 50, so the raw bounds change from `(0, 100)` to
`(50, 50)` — they are not invariant under narrowing. -/
theorem C3_raw_bounds_counterexample :
    Eda.chunk vC3 pC3 = Except.ok vC3' ∧
      Eda.get_raw_min_max_timestamps vC3' = Except.ok (50, 50) ∧
      Eda.get_raw_min_max_timestamps vC3 = Except.ok (0, 100) ∧
      ((50 : ℚ), (50 : ℚ)) ≠ ((0 : ℚ), (100 : ℚ)) := by
  refine ⟨by decide, by decide, by decide, by decide⟩

/-- Claim C3 as amended: narrowing DOES change the underlying raw signal —
`chunk` filters the raw sequence to the matched tags' combined bounds, so the
narrowed view's raw data is a subsequence of the original whose timestamps
all lie within those bounds (and its raw bounds therefore need not equal the
original's). -/
theorem C3_chunk_filters_raw (v : Eda) (p : Pattern) (v' : Eda)
    (h : v.chunk p = Except.ok v') :
    List.Sublist v'.raw v.raw ∧
      ∀ b, get_min_max_timestamps_many (v.data.filter (fun e => pattern_match e.1 p)) =
          Except.ok b →
        ∀ s ∈ v'.raw, b.1 ≤ s.1 ∧ s.1 ≤ b.2 := by
  obtain ⟨b0, hb0, rfl⟩ := chunk_ok_iff.mp h
  constructor
  · show List.Sublist (filter_by_timestamp_bounds v.raw b0) v.raw
    exact List.filter_sublist _
  · intro b hb s hs
    rw [hb0] at hb
    injection hb with hbb
    subst hbb
    have hmem : s ∈ v.raw.filter (fun s => decide (b0.1 ≤ s.1 ∧ s.1 ≤ b0.2)) := hs
    exact of_decide_eq_true (List.mem_filter.mp hmem).2

/-- Witness for C3 (amended) at the concrete view `vC3` and pattern `pC3`. -/
theorem C3_chunk_filters_raw_witness :
    List.Sublist vC3'.raw vC3.raw ∧
      ∀ b, get_min_max_timestamps_many (vC3.data.filter (fun e => pattern_match e.1 pC3)) =
          Except.ok b →
        ∀ s ∈ vC3'.raw, b.1 ≤ s.1 ∧ s.1 ≤ b.2 :=
  C3_chunk_filters_raw vC3 pC3 vC3' (by decide)

/-! ### Claim C8 -/

/-- Claim C8: narrowing is idempotent — if `v.chunk p` succeeds with view
`v'`, then `v'.chunk p` succeeds and returns `v'` itself (the same tag
mapping and the same filtered raw sequence). -/
theorem C8_chunk_idempotent (v : Eda) (p : Pattern) (v' : Eda)
    (h : v.chunk p = Except.ok v') : v'.chunk p = Except.ok v' := by
  obtain ⟨b, hb, rfl⟩ := chunk_ok_iff.mp h
  have hfil : (v.data.filter (fun e => pattern_match e.1 p)).filter
      (fun e => pattern_match e.1 p) = v.data.filter (fun e => pattern_match e.1 p) :=
    List.filter_eq_self.mpr (fun a ha => (List.mem_filter.mp ha).2)
  have hff : filter_by_timestamp_bounds (filter_by_timestamp_bounds v.raw b) b =
      filter_by_timestamp_bounds v.raw b :=
    List.filter_eq_self.mpr (fun a ha => (List.mem_filter.mp ha).2)
  refine chunk_ok_iff.mpr ⟨b, ?_, ?_⟩
  · show get_min_max_timestamps_many ((v.data.filter (fun e => pattern_match e.1 p)).filter
      (fun e => pattern_match e.1 p)) = Except.ok b
    rw [hfil]
    exact hb
  · show (⟨filter_by_timestamp_bounds v.raw b,
        v.data.filter (fun e => pattern_match e.1 p)⟩ : Eda)
      = ⟨filter_by_timestamp_bounds (filter_by_timestamp_bounds v.raw b) b,
        (v.data.filter (fun e => pattern_match e.1 p)).filter (fun e => pattern_match e.1 p)⟩
    rw [hff, hfil]

/-- Witness for C8 at the concrete view `vC3` and pattern `pC3`. -/
theorem C8_chunk_idempotent_witness :
    Eda.chunk vC3 pC3 = Except.ok vC3' ∧ Eda.chunk vC3' pC3 = Except.ok vC3' :=
  ⟨by decide, C8_chunk_idempotent vC3 pC3 vC3' (by decide)⟩

/-! ### Claim C10 -/

/-- Claim C10: if a pattern matches none of a view's tags, `chunk` fails with
the `AssertionError` raised by `get_min_max_timestamps_many` on the empty
result; and `chunk` never returns a view with an empty tag mapping. -/
theorem C10_chunk_empty_match (v : Eda) (p : Pattern) :
    ((∀ e ∈ v.data, pattern_match e.1 p = false) →
        v.chunk p = Except.error "AssertionError") ∧
      ∀ v', v.chunk p = Except.ok v' → v'.data ≠ [] := by
  constructor
  · intro hall
    have hnil : v.data.filter (fun e => pattern_match e.1 p) = [] :=
      List.filter_eq_nil_iff.mpr (fun e he => by simp [hall e he])
    simp only [Eda.chunk]
    rw [hnil]
    rfl
  · intro v' h
    obtain ⟨b, hb, rfl⟩ := chunk_ok_iff.mp h
    exact gmmtm_ok_ne_nil hb

/-- Witness for C10 at the concrete view `vC3`, with the non-matching
pattern `pNoMatch` and the matching pattern `pC3`. -/
theorem C10_chunk_empty_match_witness :
    Eda.chunk vC3 pNoMatch = Except.error "AssertionError" ∧ vC3'.data ≠ [] :=
  ⟨(C10_chunk_empty_match vC3 pNoMatch).1 (by decide),
   (C10_chunk_empty_match vC3 pC3).2 vC3' (by decide)⟩

/-- The example collection of claim C7: run A spans 10–20, run B spans 5–15. -/
def exD : List (Tag × List Sample) :=
  [((str "A", str "A", str "A"), [(10, 0), (20, 0)]),
   ((str "B", str "B", str "B"), [(5, 0), (15, 0)])]

/-- Witness for C7 at `exD`; concretely the union of the bounds is `(5, 20)`. -/
theorem C7_bounds_union_witness :
    (∃ s t, get_min_max_timestamps_many exD = Except.ok (s, t) ∧
        s ∈ exD.map (fun e => (e.2.headD (0, 0)).1) ∧
        (∀ x ∈ exD.map (fun e => (e.2.headD (0, 0)).1), s ≤ x) ∧
        t ∈ exD.map (fun e => (e.2.getLastD (0, 0)).1) ∧
        (∀ x ∈ exD.map (fun e => (e.2.getLastD (0, 0)).1), x ≤ t)) ∧
      get_min_max_timestamps_many exD = Except.ok (5, 20) :=
  ⟨C7_bounds_union exD (by decide) (by decide), by rfl⟩

/-! ### A reference-and-store model for claim C9

Claim C9 is about mutation and aliasing, which a pure value model cannot
express.  The lists a Python `Eda` object holds are therefore placed in an
explicit store of list cells; an `EdaRef` holds indices into the store, and
`Eda.chunkRef` performs exactly the allocations `Eda.chunk` performs in
Python: one fresh copy (`data[:]`) per retained entry, and one fresh list for
the filtered raw data.  Python only ever appends fresh cells, so the store
grows and no existing cell is written. -/

/-- A store of list cells; a reference is an index into `cells`. -/
structure Store where
  cells : List (List Sample)
deriving DecidableEq, Repr

/-- Reads the cell a reference designates. -/
def Store.read (s : Store) (r : Nat) : List Sample := s.cells.getD r []

/-- Allocates a fresh cell holding `v` and returns its reference. -/
def Store.alloc (s : Store) (v : List Sample) : Store × Nat :=
  (⟨s.cells ++ [v]⟩, s.cells.length)

/-- An `Eda` object whose raw list and per-tag data lists live in a store. -/
structure EdaRef where
  raw : Nat
  data : List (Tag × Nat)
deriving DecidableEq, Repr

/-- The `result[group] = data[:]` loop of `Eda.chunk`: allocates a fresh copy
of every retained entry's data list. -/
def allocCopies : Store → List (Tag × Nat) → Store × List (Tag × Nat)
  | s, [] => (s, [])
  | s, (t, r) :: rest =>
    let a := s.alloc (s.read r)
    let res := allocCopies a.1 rest
    (res.1, (t, a.2) :: res.2)

/-- `Eda.chunk` acting on the store: filters the entries by the pattern,
copies each retained data list into a fresh cell, computes the bounds of the
copies, and allocates a fresh cell for the filtered raw list.  The receiver's
cells are never written. -/
def Eda.chunkRef (s : Store) (v : EdaRef) (p : Pattern) : Except String (Store × EdaRef) :=
  let matched := v.data.filter (fun e => pattern_match e.1 p)
  let ac := allocCopies s matched
  match get_min_max_timestamps_many (ac.2.map (fun e => (e.1, Store.read ac.1 e.2))) with
  | Except.error msg => Except.error msg
  | Except.ok new_data_bounds =>
    let nr := Store.alloc ac.1 (filter_by_timestamp_bounds (Store.read ac.1 v.raw) new_data_bounds)
    Except.ok (nr.1, ⟨nr.2, ac.2⟩)

theorem allocCopies_spec : ∀ (entries : List (Tag × Nat)) (s : Store),
    (∃ ext, (allocCopies s entries).1.cells = s.cells ++ ext) ∧
      ∀ e ∈ (allocCopies s entries).2, s.cells.length ≤ e.2 := by
  intro entries
  induction entries with
  | nil => exact fun s => ⟨⟨[], by simp [allocCopies]⟩, by simp [allocCopies]⟩
  | cons e rest ih =>
    intro s
    obtain ⟨⟨ext, hext⟩, hge⟩ := ih (s.alloc (s.read e.2)).1
    constructor
    · exact ⟨[s.read e.2] ++ ext, by
        simp only [allocCopies, hext]
        simp [Store.alloc]⟩
    · intro e' he'
      rcases List.mem_cons.mp he' with h | h
      · subst h
        exact le_refl _
      · have := hge e' h
        simp only [Store.alloc] at this
        calc s.cells.length ≤ s.cells.length + 1 := by omega
          _ = (s.cells ++ [s.read e.2]).length := by simp
          _ ≤ e'.2 := by simpa [Store.alloc] using this

/-! ### Claim C9 -/

/-- Claim C9: `chunk` never mutates its receiver.  In the store model, a
successful `chunkRef` only appends fresh cells: the store after the call
extends the store before it, every pre-existing cell (in particular the
receiver's raw list and all of its data lists) reads exactly as before, and
the returned view is independent — its raw reference and all its data
references are fresh cells allocated at or beyond the old store's end. -/
theorem C9_chunk_no_mutation (s : Store) (v : EdaRef) (p : Pattern) (s' : Store) (v' : EdaRef)
    (h : Eda.chunkRef s v p = Except.ok (s', v')) :
    (∃ ext, s'.cells = s.cells ++ ext) ∧
      (∀ r, r < s.cells.length → Store.read s' r = Store.read s r) ∧
      s.cells.length ≤ v'.raw ∧
      ∀ e ∈ v'.data, s.cells.length ≤ e.2 := by
  obtain ⟨⟨ext, hext⟩, hge⟩ := allocCopies_spec (v.data.filter (fun e => pattern_match e.1 p)) s
  simp only [Eda.chunkRef] at h
  cases hb : get_min_max_timestamps_many
      ((allocCopies s (v.data.filter (fun e => pattern_match e.1 p))).2.map
        (fun e =>
          (e.1, Store.read (allocCopies s (v.data.filter (fun e => pattern_match e.1 p))).1 e.2))) with
  | error m => rw [hb] at h; cases h
  | ok b =>
    rw [hb] at h
    cases h
    refine ⟨⟨ext ++ [filter_by_timestamp_bounds
        (Store.read (allocCopies s (v.data.filter (fun e => pattern_match e.1 p))).1 v.raw) b],
      ?_⟩, ?_, ?_, ?_⟩
    · show (allocCopies s (v.data.filter (fun e => pattern_match e.1 p))).1.cells ++ _
        = s.cells ++ _
      rw [hext, List.append_assoc]
    · intro r hr
      show ((allocCopies s (v.data.filter (fun e => pattern_match e.1 p))).1.cells ++ _).getD r []
        = s.cells.getD r []
      rw [hext, List.append_assoc, List.getD_append _ _ _ _ hr]
    · show s.cells.length ≤ (allocCopies s (v.data.filter (fun e => pattern_match e.1 p))).1.cells.length
      rw [hext]
      simp
    · exact hge

/-- An initial store: cell 0 is the raw list of `vC3`, cell 1 the data list
of its single tagged run. -/
def s0 : Store := ⟨[[(0, 1), (50, 1), (100, 1)], [(40, 1), (60, 1)]]⟩

/-- The view `vC3` expressed with references into `s0`. -/
def v0 : EdaRef := ⟨0, [(tagA, 1)]⟩

/-- The store after `Eda.chunkRef s0 v0 pC3`: the two old cells unchanged,
plus the copied data list (cell 2) and the filtered raw list (cell 3). -/
def s0' : Store := ⟨[[(0, 1), (50, 1), (100, 1)], [(40, 1), (60, 1)],
  [(40, 1), (60, 1)], [(50, 1)]]⟩

/-- The view returned by `Eda.chunkRef s0 v0 pC3`. -/
def v0' : EdaRef := ⟨3, [(tagA, 2)]⟩

/-- Witness for C9 at the concrete store `s0` and view `v0`. -/
theorem C9_chunk_no_mutation_witness :
    (∃ ext, s0'.cells = s0.cells ++ ext) ∧
      (∀ r, r < s0.cells.length → Store.read s0' r = Store.read s0 r) ∧
      s0.cells.length ≤ v0'.raw ∧
      ∀ e ∈ v0'.data, s0.cells.length ≤ e.2 :=
  C9_chunk_no_mutation s0 v0 pC3 s0' v0' (by decide)

/-! ### Justification of the exact-arithmetic gap test -/

/-- For a nonnegative variance, `is_large_gap avg variance diff = true` holds
exactly when `diff > avg + 3 * sqrt variance` over the reals — i.e. the
squared comparison used above is the comparison
`diff > average_time_in_micros + 3 * stddev` performed by the Python code. -/
theorem is_large_gap_iff_sqrt (avg variance diff : ℚ) (hv : 0 ≤ variance) :
    is_large_gap avg variance diff = true ↔
      (avg : ℝ) + 3 * Real.sqrt (variance : ℝ) < (diff : ℝ) := by
  rw [is_large_gap, Bool.and_eq_true, decide_eq_true_eq, decide_eq_true_eq]
  have hv' : (0 : ℝ) ≤ (variance : ℚ) := by exact_mod_cast hv
  have h9 : Real.sqrt (9 * (variance : ℝ)) = 3 * Real.sqrt (variance : ℝ) := by
    rw [show (9 : ℝ) * variance = 3 ^ 2 * variance by ring,
      Real.sqrt_mul (by positivity) _, Real.sqrt_sq (by norm_num)]
  constructor
  · rintro ⟨h1, h2⟩
    have h1' : (avg : ℝ) < diff := by exact_mod_cast h1
    have h2' : 9 * (variance : ℝ) < ((diff : ℝ) - avg) ^ 2 := by exact_mod_cast h2
    have hpos : 0 < (diff : ℝ) - avg := by linarith
    have hsq := Real.sqrt_lt_sqrt (by positivity) h2'
    rw [h9, Real.sqrt_sq (le_of_lt hpos)] at hsq
    linarith
  · intro h
    have hs : 0 ≤ Real.sqrt (variance : ℝ) := Real.sqrt_nonneg _
    have h1' : (avg : ℝ) < diff := by nlinarith
    have hlt : Real.sqrt (9 * (variance : ℝ)) < (diff : ℝ) - avg := by
      rw [h9]; linarith
    have h2' := (Real.sqrt_lt' (by linarith : (0 : ℝ) < (diff : ℝ) - avg)).mp hlt
    exact ⟨by exact_mod_cast h1', by exact_mod_cast h2'⟩
